import Mathlib

/-!
Verification of the `indice` web application (TypeScript/Next.js) against its
natural-language specification.  The definitions below are a shallow embedding
of the server route handlers and client-side merge logic:

* `src/types/learning.ts`            — the data model,
* `src/app/api/enrich-modules/route.ts` — the Tavily enrichment endpoint,
* `src/app/api/process-text/route.ts`   — the OpenAI index-generation endpoint,
* `src/app/api/auth/route.ts` and `src/app/middleware.ts` — session gating,
* `src/app/app/page.tsx`             — the client merge handlers.

External services (Tavily search, the OpenAI chat completion, `JSON.parse`)
are modelled as oracle parameters: functions from the data this code sends
to the outcome the service may return.  Strings are treated at the character
level (JavaScript's UTF-16 code-unit view is approximated by Lean `Char`
lists), and JavaScript's `\s` whitespace class is approximated by
`Char.isWhitespace`.
-/

namespace Indice

/-- The `\x7b` character (opening curly bracket), kept as a named constant. -/
def lbrace : Char := Char.ofNat 123

/-- The `\x7d` character (closing curly bracket), kept as a named constant. -/
def rbrace : Char := Char.ofNat 125

/-- The backquote character used by markdown code fences. -/
def backquote : Char := Char.ofNat 96

/-! Data model — `src/types/learning.ts` -/

/-- The `Difficulty` union type from `src/types/learning.ts`. -/
inductive Difficulty where
  | Beginner
  | Intermediate
  | Advanced
deriving DecidableEq, Repr

/-- The `Resource` interface from `src/types/learning.ts`.  The numeric relevance `score`
is carried opaquely; no code in the repository computes with it. -/
structure Resource where
  title : String
  content : String
  url : String
  score : Int
  raw_content : Option String
deriving DecidableEq, Repr

/-- The `LearningModule` interface from `src/types/learning.ts` (`resources?` is optional). -/
structure LearningModule where
  order : Int
  title : String
  description : String
  difficulty : Difficulty
  resources : Option (List Resource)
deriving DecidableEq, Repr

/-- The `EnrichedModule` interface from `src/types/learning.ts`. -/
structure EnrichedModule where
  module_title : String
  resources : List Resource
deriving DecidableEq, Repr

/-- The `EnrichedModulesResponse` interface from `src/types/learning.ts`. -/
structure EnrichedModulesResponse where
  enriched_modules : List EnrichedModule
deriving DecidableEq, Repr

/-- The `LearningIndexResponse` interface from `src/types/learning.ts`.  A field that is
absent in the raw JSON is modelled as the empty string, which is
indistinguishable from absence under the JavaScript truthiness checks the
routes perform. -/
structure LearningIndexResponse where
  main_topic : String
  topic_summary : String
  learning_modules : List LearningModule
deriving DecidableEq, Repr

/-- The observable outcome of a route handler: a 200 JSON body, or
`NextResponse.json({error: message}, {status})`. -/
inductive ApiResult (α : Type) where
  | json (body : α)
  | error (status : Nat) (message : String)
deriving DecidableEq, Repr

/-! Enrichment endpoint — `src/app/api/enrich-modules/route.ts` -/

/-- Function `truncateQuery` (lines 4–9): a query longer than 400 characters is cut to
its first 380 characters (`query.substring(0, 380)`); otherwise it is returned
unchanged. -/
def truncateQuery (query : String) : String :=
  if query.length > 400 then String.mk (query.data.take 380) else query

/-- The `TavilyResult` interface (lines 11–16). -/
structure TavilyResult where
  title : String
  url : String
  score : Int
  content : String
deriving DecidableEq, Repr

/-- Outcome of one `fetch('https://api.tavily.com/search', ...)` round trip,
as observed by the handler:
* `ok results` — `tavilyResponse.ok` held and the body parsed, with `results`
  possibly absent (`none`);
* `httpError status` — `tavilyResponse.ok` was false with the given HTTP
  status;
* `thrown` — the fetch or the body parse threw (caught at line 117). -/
inductive TavilyOutcome where
  | ok (results : Option (List TavilyResult))
  | httpError (status : Nat)
  | thrown
deriving DecidableEq, Repr

/-- The body of the per-module loop (lines 53–125).  The search provider is an
oracle from the query string to the outcome of the call.  `.error` aborts the
whole request (the early `return` statements at lines 79 and 86); `.ok` pushes
one `EnrichedModule` and continues. -/
def processModule (provider : String → TavilyOutcome) (m : LearningModule) :
    Except (Nat × String) EnrichedModule :=
  let query := truncateQuery m.title
  match provider query with
  | .httpError status =>
      if status == 401 then
        .error (401, "Invalid Tavily API key. Please check your TAVILY_API_KEY configuration.")
      else if status == 429 then
        .error (429, "Tavily API rate limit exceeded. Please try again later.")
      else
        .ok { module_title := m.title, resources := [] }
  | .thrown => .ok { module_title := m.title, resources := [] }
  | .ok results =>
      .ok { module_title := m.title,
            resources := (results.getD []).map fun r =>
              { title := r.title, content := r.content, url := r.url
                score := r.score, raw_content := none } }

/-- The `for (const module of learningIndex.learning_modules)` loop: modules
are processed strictly in order, accumulating one entry per module; an
aborting error discards the accumulation and ends the request. -/
def enrichLoop (provider : String → TavilyOutcome) :
    List LearningModule → Except (Nat × String) (List EnrichedModule)
  | [] => .ok []
  | m :: rest =>
    match processModule provider m with
    | .error e => .error e
    | .ok em =>
      match enrichLoop provider rest with
      | .error e => .error e
      | .ok ems => .ok (em :: ems)

/-- Handler `POST` of `src/app/api/enrich-modules/route.ts`.  `apiKeySet` models
whether `TAVILY_API_KEY` is present; `body` is the parsed request body
(`none` when `request.json()` throws, which the outer catch turns into a
500).  A body that parses to a `LearningIndexResponse` value always passes
the shape check at line 39, so that branch does not appear separately. -/
def enrichPOST (apiKeySet : Bool) (provider : String → TavilyOutcome)
    (body : Option LearningIndexResponse) : ApiResult EnrichedModulesResponse :=
  if !apiKeySet then
    .error 500 "Server configuration error: TAVILY_API_KEY not set"
  else
    match body with
    | none => .error 500 "An error occurred while enriching modules. Please try again."
    | some learningIndex =>
      match enrichLoop provider learningIndex.learning_modules with
      | .error (status, message) => .error status message
      | .ok ems => .json { enriched_modules := ems }

/-- The entry the loop produces for a module when the call does not abort the
request: empty resources on any non-aborting provider error, the mapped
results otherwise. -/
def entryFor (provider : String → TavilyOutcome) (m : LearningModule) : EnrichedModule :=
  match provider (truncateQuery m.title) with
  | .ok results =>
      { module_title := m.title,
        resources := (results.getD []).map fun r =>
          { title := r.title, content := r.content, url := r.url
            score := r.score, raw_content := none } }
  | _ => { module_title := m.title, resources := [] }

/-- Whether the provider outcome for this module aborts the whole request
(status 401 or 429 at lines 78–90). -/
def abortsAt (provider : String → TavilyOutcome) (m : LearningModule) : Bool :=
  match provider (truncateQuery m.title) with
  | .httpError status => status == 401 || status == 429
  | _ => false

/-- Whether the outcome of the provider call was an error of any kind (a
non-2xx HTTP response or a thrown exception). -/
def isProviderError : TavilyOutcome → Bool
  | .httpError _ => true
  | .thrown => true
  | .ok _ => false

/-! Response normalizer of the index endpoint — `cleanJsonResponse`
(`src/app/api/process-text/route.ts`, lines 36–53), built on character
lists.  JavaScript's `trim` and the `\s` class are approximated by
`Char.isWhitespace`. -/

/-- JavaScript `String.prototype.trim` on a character list: drop whitespace from both
ends. -/
def trimChars (cs : List Char) : List Char :=
  ((cs.dropWhile Char.isWhitespace).reverse.dropWhile Char.isWhitespace).reverse

/-- Right-trim only: drop whitespace from the end of a character list. -/
def rtrimWs (cs : List Char) : List Char :=
  (cs.reverse.dropWhile Char.isWhitespace).reverse

/-- One concrete opening markdown code fence, with the lowercase language
tag: three backquotes, `json`, a newline. -/
def fenceHeader : List Char :=
  [backquote, backquote, backquote, 'j', 's', 'o', 'n', '\n']

/-- Helper for the optional case-insensitive `json` language tag after the
opening fence: the regex `(?:json)?` with the `i` flag. -/
def stripJsonTag (cs : List Char) : List Char :=
  if (cs.take 4).map Char.toLower = ['j', 's', 'o', 'n'] then cs.drop 4 else cs

/-- Embeds line 41 — the replacement of the regex "three backquotes at the
start, an optional case-insensitive json tag, trailing whitespace" by the
empty string: when the text starts with three backquotes, remove them, the
optional tag, and the whitespace after them. -/
def stripLeadingFence (cs : List Char) : List Char :=
  if cs.take 3 = [backquote, backquote, backquote] then
    (stripJsonTag (cs.drop 3)).dropWhile Char.isWhitespace
  else cs

/-- Embeds line 44 — the replacement of the regex "whitespace then three
backquotes at the end" by the empty string: when the text ends with three
backquotes, remove them and the whitespace just before them. -/
def stripTrailingFence (cs : List Char) : List Char :=
  if cs.reverse.take 3 = [backquote, backquote, backquote] then
    ((cs.reverse.drop 3).dropWhile Char.isWhitespace).reverse
  else cs

/-- Index of the first occurrence of a character. -/
def firstIdxOf (c : Char) : List Char → Option Nat
  | [] => none
  | a :: rest => if a == c then some 0 else (firstIdxOf c rest).map (· + 1)

/-- Index of the last occurrence of a character. -/
def lastIdxOf (c : Char) (cs : List Char) : Option Nat :=
  (firstIdxOf c cs.reverse).map fun k => cs.length - 1 - k

/-- Embeds `cleaned.match(/\x7b[\s\S]*\x7d/)` and the replacement at line 49: the
greedy leftmost match runs from the first opening brace to the last closing
brace of the text, provided the latter comes strictly after the former; when
there is no match the text is kept unchanged. -/
def extractJsonSpan (cs : List Char) : List Char :=
  match firstIdxOf lbrace cs, lastIdxOf rbrace cs with
  | some i, some j => if i < j then (cs.drop i).take (j - i + 1) else cs
  | _, _ => cs

/-- Function `cleanJsonResponse` (lines 36–53): trim, strip the code fences, extract
the brace-delimited span, trim again. -/
def cleanJsonCore (cs : List Char) : List Char :=
  trimChars (extractJsonSpan (stripTrailingFence (stripLeadingFence (trimChars cs))))

/-- String-level wrapper of `cleanJsonCore`. -/
def cleanJsonResponse (s : String) : String :=
  String.mk (cleanJsonCore s.data)

/-! Index-generation endpoint — `src/app/api/process-text/route.ts` -/

/-- The `text` field of the request body as JavaScript sees it after
destructuring: absent, present but not a string, or a string. -/
inductive TextField where
  | missing
  | nonString
  | str (s : String)
deriving DecidableEq, Repr

/-- Negation of the rejection test at line 89
(`!text || typeof text !== "string" || text.trim().length === 0`).
An absent field is falsy; a non-string value fails the `typeof` check when
truthy and the `!text` check when falsy; the empty string is falsy. -/
def isValidTextInput : TextField → Bool
  | .missing => false
  | .nonString => false
  | .str s => !(s == "") && !((trimChars s.data).length == 0)

/-- Outcome of the `openai.chat.completions.create` call:
`content c` is a completed call whose `choices[0].message.content` is `c`
(`none` for a null content), `failure status` is a thrown error carrying the
given HTTP status. -/
inductive LlmOutcome where
  | content (text : Option String)
  | failure (status : Nat)
deriving DecidableEq, Repr

/-- The catch block at lines 154–183, modelled on the error's status code
(the message-substring tests select the same statuses). -/
def mapLlmFailure (status : Nat) : ApiResult LearningIndexResponse :=
  if status == 401 then
    .error 401 "Invalid API key. Please check your OPENAI_API_KEY configuration."
  else if status == 429 then
    .error 429 "API quota exceeded or rate limit reached. Please try again later."
  else if status == 402 then
    .error 402 "Insufficient quota. Please check your OpenAI account billing."
  else
    .error 500 "An error occurred while processing your text. Please try again."

/-- The structure check at lines 142–151:
`!learningIndex.main_topic || !learningIndex.topic_summary ||
!Array.isArray(learningIndex.learning_modules)`.  In the typed model the
array check always holds; string fields are truthy exactly when
non-empty. -/
def validateStructure (learningIndex : LearningIndexResponse) : Bool :=
  !(learningIndex.main_topic == "") && !(learningIndex.topic_summary == "")

/-- Handler `POST` of `src/app/api/process-text/route.ts`.  `apiKeySet` models
`OPENAI_API_KEY` presence; `body` is the parsed request body (`none` when
`request.json()` throws, which reaches the generic 500 of the catch block);
`llm` is the completion oracle; `parse` is the `JSON.parse` oracle (`none`
when it throws). -/
def processTextPOST (apiKeySet : Bool) (body : Option TextField)
    (llm : LlmOutcome) (parse : String → Option LearningIndexResponse) :
    ApiResult LearningIndexResponse :=
  if !apiKeySet then
    .error 500 "Server configuration error: OPENAI_API_KEY not set"
  else
    match body with
    | none => .error 500 "An error occurred while processing your text. Please try again."
    | some text =>
      if !(isValidTextInput text) then
        .error 400 "Text input is required and cannot be empty"
      else
        match llm with
        | .failure status => mapLlmFailure status
        | .content none => .error 500 "No response received from OpenAI API"
        | .content (some responseText) =>
          match parse (cleanJsonResponse responseText) with
          | none => .error 500 "Failed to parse LLM response as JSON"
          | some learningIndex =>
            if validateStructure learningIndex then .json learningIndex
            else .error 500 "Invalid response structure from LLM"

/-! Session gating — `src/app/middleware.ts` and `src/app/api/auth/route.ts` -/

/-- What `middleware` returns: a redirect to a URL path (with an optional
`redirect` query parameter) or `NextResponse.next()`. -/
inductive MiddlewareResult where
  | redirect (path : String) (redirectParam : Option String)
  | next
deriving DecidableEq, Repr

/-- The relevant parts of the incoming request as the middleware reads them:
the path, the value of the `authenticated` cookie if present, and the value
of the `redirect` query parameter if present. -/
structure MiddlewareRequest where
  pathname : String
  authenticatedCookie : Option String
  redirectParam : Option String
deriving DecidableEq, Repr

/-- JavaScript `String.prototype.startsWith`, at the character level. -/
def startsWithPath (s p : String) : Bool := p.data.isPrefixOf s.data

/-- Function `middleware` (`src/app/middleware.ts`, lines 4–27). -/
def middleware (request : MiddlewareRequest) : MiddlewareResult :=
  let isAuthenticated := request.authenticatedCookie == some "true"
  if startsWithPath request.pathname "/app" then
    if !isAuthenticated then
      .redirect "/" (some request.pathname)
    else
      .next
  else if request.pathname == "/" && isAuthenticated then
    .redirect (request.redirectParam.getD "/app") none
  else
    .next

/-- Observable behaviour of the auth endpoint: the HTTP status and the
`Set-Cookie` pair, when one is issued. -/
structure AuthResult where
  status : Nat
  setCookie : Option (String × String)
deriving DecidableEq, Repr

/-- Handler `POST` of `src/app/api/auth/route.ts`.  `accessPassword` is
`process.env.ACCESS_PASSWORD`; `body` is the parsed request body (`none`
when `request.json()` throws — the catch at line 48), carrying the optional
`password` field. -/
def authPOST (accessPassword : Option String) (body : Option (Option String)) : AuthResult :=
  match body with
  | none => { status := 400, setCookie := none }
  | some password =>
    match accessPassword with
    | none => { status := 500, setCookie := none }
    | some correctPassword =>
      if password == some correctPassword then
        { status := 200, setCookie := some ("authenticated", "true") }
      else
        { status := 401, setCookie := none }

/-! Client-side merges — `src/app/app/page.tsx` -/

/-- The first enriched entry whose `module_title` equals the given title,
with its resources, or the empty list when no entry matches:
`enrichedData.enriched_modules.find(e => e.module_title === title)` followed
by `enriched?.resources || []` (a found resources array is always truthy). -/
def matchedResources (enrichedData : EnrichedModulesResponse) (title : String) : List Resource :=
  ((enrichedData.enriched_modules.find? fun e => e.module_title == title).map
    EnrichedModule.resources).getD []

/-- The merge inside `handleSendToAI` (`src/app/app/page.tsx`, lines
119–134): every module's `resources` is replaced by the first title-matching
entry's resources, or by the empty list. -/
def mergeAll (result : LearningIndexResponse) (enrichedData : EnrichedModulesResponse) :
    LearningIndexResponse :=
  { result with
    learning_modules := result.learning_modules.map fun m =>
      { m with resources := some (matchedResources enrichedData m.title) } }

/-- The merge inside `handleEnrichSingleModule` (`src/app/app/page.tsx`,
lines 169–180): only the module whose `order` equals the enriched module's
`order` has its `resources` replaced; every other module is returned
untouched. -/
def mergeSingle (result : LearningIndexResponse) (targetModule : LearningModule)
    (enrichedData : EnrichedModulesResponse) : LearningIndexResponse :=
  { result with
    learning_modules := result.learning_modules.map fun m =>
      if m.order == targetModule.order then
        { m with resources := some (matchedResources enrichedData targetModule.title) }
      else m }

/-! Concrete inputs used by witnesses and counterexamples -/

/-- A provider whose every call fails with HTTP 401 (for example, a revoked
Tavily key). -/
def unauthorizedProvider : String → TavilyOutcome := fun _ => .httpError 401

/-- A provider whose call for the query "A" throws (network failure) and
succeeds with an empty result list otherwise. -/
def flakyProvider : String → TavilyOutcome :=
  fun q => if q == "A" then .thrown else .ok (some [])

/-- A provider that always succeeds with an empty result list. -/
def emptyProvider : String → TavilyOutcome := fun _ => .ok (some [])

/-- A minimal module with the given order and title. -/
def sampleModule (order : Int) (title : String) : LearningModule :=
  { order := order, title := title, description := "d", difficulty := .Beginner,
    resources := none }

/-- A minimal index holding the given modules. -/
def sampleIndex (ms : List LearningModule) : LearningIndexResponse :=
  { main_topic := "T", topic_summary := "S", learning_modules := ms }

/-- An index with zero modules whose other fields pass the structure check;
`JSON.parse` produces it from the corresponding JSON text. -/
def zeroModulesIndex : LearningIndexResponse :=
  { main_topic := "X", topic_summary := "Y", learning_modules := [] }

/-- An index with two modules sharing the order value 1; `JSON.parse`
produces it from the corresponding JSON text. -/
def dupOrderIndex : LearningIndexResponse :=
  { main_topic := "X", topic_summary := "Y",
    learning_modules := [sampleModule 1 "A", sampleModule 1 "B"] }

/-- A `JSON.parse` oracle returning the zero-module index. -/
def zeroModulesParse : String → Option LearningIndexResponse :=
  fun _ => some zeroModulesIndex

/-- A `JSON.parse` oracle returning the duplicate-order index. -/
def dupOrderParse : String → Option LearningIndexResponse :=
  fun _ => some dupOrderIndex

/-! Helper lemmas about the enrichment loop -/

/-- A non-aborting provider outcome makes `processModule` push `entryFor`. -/
theorem processModule_of_not_aborts (provider : String → TavilyOutcome)
    (m : LearningModule) (h : abortsAt provider m = false) :
    processModule provider m = .ok (entryFor provider m) := by
  unfold abortsAt at h
  simp only [processModule, entryFor]
  cases hp : provider (truncateQuery m.title) with
  | ok results => simp [hp]
  | thrown => simp [hp]
  | httpError status =>
    rw [hp] at h
    simp only [Bool.or_eq_false_iff, beq_eq_false_iff_ne] at h
    simp [hp, beq_iff_eq, h.1, h.2]

/-- A successful `processModule` step is non-aborting and pushes
`entryFor`. -/
theorem processModule_ok_elim (provider : String → TavilyOutcome)
    (m : LearningModule) (em : EnrichedModule)
    (h : processModule provider m = .ok em) :
    abortsAt provider m = false ∧ em = entryFor provider m := by
  simp only [processModule] at h
  unfold abortsAt entryFor
  cases hp : provider (truncateQuery m.title) with
  | ok results =>
    rw [hp] at h
    simp only [Except.ok.injEq] at h
    simp [h]
  | thrown =>
    rw [hp] at h
    simp only [Except.ok.injEq] at h
    simp [h]
  | httpError status =>
    rw [hp] at h
    by_cases h401 : status = 401
    · subst h401; simp at h
    · by_cases h429 : status = 429
      · subst h429; simp [h401] at h
      · simp only [beq_iff_eq, h401, h429, if_false, Except.ok.injEq] at h
        simp [beq_iff_eq, h401, h429, h]

/-- The entry built for a module always carries that module's title. -/
theorem entryFor_module_title (provider : String → TavilyOutcome)
    (m : LearningModule) : (entryFor provider m).module_title = m.title := by
  unfold entryFor
  cases hp : provider (truncateQuery m.title) <;> simp

/-- When no module aborts, the loop returns exactly one `entryFor` per
module, in input order. -/
theorem enrichLoop_eq_map (provider : String → TavilyOutcome)
    (ms : List LearningModule)
    (h : ∀ m ∈ ms, abortsAt provider m = false) :
    enrichLoop provider ms = .ok (ms.map (entryFor provider)) := by
  induction ms with
  | nil => rfl
  | cons m rest ih =>
    have h1 : abortsAt provider m = false := h m (List.mem_cons_self m rest)
    have h2 : ∀ x ∈ rest, abortsAt provider x = false :=
      fun x hx => h x (List.mem_cons_of_mem m hx)
    rw [enrichLoop, processModule_of_not_aborts provider m h1, ih h2]
    rfl

/-- A successful loop run means no module aborted, and the output is exactly
the per-module entries in input order. -/
theorem enrichLoop_ok_elim (provider : String → TavilyOutcome)
    (ms : List LearningModule) (l : List EnrichedModule)
    (h : enrichLoop provider ms = .ok l) :
    l = ms.map (entryFor provider) ∧ ∀ m ∈ ms, abortsAt provider m = false := by
  induction ms generalizing l with
  | nil =>
    simp only [enrichLoop, Except.ok.injEq] at h
    simp [← h]
  | cons m rest ih =>
    rw [enrichLoop] at h
    cases hp : processModule provider m with
    | error e => rw [hp] at h; cases h
    | ok em =>
      rw [hp] at h
      cases hr : enrichLoop provider rest with
      | error e => rw [hr] at h; cases h
      | ok ems =>
        rw [hr] at h
        simp only [Except.ok.injEq] at h
        obtain ⟨hes, hrest⟩ := ih ems hr
        obtain ⟨hab, hentry⟩ := processModule_ok_elim provider m em hp
        subst h
        constructor
        · simp [hentry, hes]
        · intro x hx
          rcases List.mem_cons.mp hx with hx | hx
          · rw [hx]; exact hab
          · exact hrest x hx

/-- Peeling the handler: a 200 response means the key was set, the body
parsed, and the loop succeeded on the parsed index's modules. -/
theorem enrichPOST_json_elim (apiKeySet : Bool) (provider : String → TavilyOutcome)
    (body : Option LearningIndexResponse) (resp : EnrichedModulesResponse)
    (h : enrichPOST apiKeySet provider body = .json resp) :
    ∃ learningIndex, body = some learningIndex ∧
      resp.enriched_modules
        = learningIndex.learning_modules.map (entryFor provider) ∧
      ∀ m ∈ learningIndex.learning_modules, abortsAt provider m = false := by
  cases apiKeySet with
  | false => simp [enrichPOST] at h
  | true =>
    cases body with
    | none => simp [enrichPOST] at h
    | some learningIndex =>
      refine ⟨learningIndex, rfl, ?_⟩
      unfold enrichPOST at h
      simp only [Bool.not_true, Bool.false_eq_true, if_false] at h
      cases hl : enrichLoop provider learningIndex.learning_modules with
      | error e =>
        rw [hl] at h
        cases e with
        | mk status message => simp at h
      | ok ems =>
        rw [hl] at h
        simp only [ApiResult.json.injEq] at h
        obtain ⟨hes, hab⟩ := enrichLoop_ok_elim provider _ ems hl
        subst h
        exact ⟨hes ▸ rfl, hab⟩

/-! Claim theorems for the enrichment endpoint -/

/-- C1 counterexample: a provider error of HTTP status 401 for an individual
module does NOT leave that module with an empty resource list — it aborts the
whole request with a 401 error response, so a per-item enrichment error is
surfaced as failure of the whole request. -/
theorem enrich_abort_on_401_counterexample :
    enrichPOST true unauthorizedProvider (some (sampleIndex [sampleModule 1 "M"]))
      = .error 401 "Invalid Tavily API key. Please check your TAVILY_API_KEY configuration." := by
  rfl

/-- C1 (amended): for every accepted input index, provided no module's
provider call fails with HTTP status 401 or 429, the request succeeds with
one entry per module, and every module whose provider call errored (threw,
or returned a non-2xx status other than 401/429) receives an empty resource
list, that module alone being affected; such per-item errors are never
surfaced as failure of the whole request. -/
theorem enrich_per_module_failure_isolation (provider : String → TavilyOutcome)
    (learningIndex : LearningIndexResponse)
    (h : ∀ m ∈ learningIndex.learning_modules, abortsAt provider m = false) :
    enrichPOST true provider (some learningIndex)
      = .json { enriched_modules :=
          learningIndex.learning_modules.map (entryFor provider) } ∧
    ∀ m ∈ learningIndex.learning_modules,
      isProviderError (provider (truncateQuery m.title)) = true →
        entryFor provider m = { module_title := m.title, resources := [] } := by
  constructor
  · simp [enrichPOST, enrichLoop_eq_map provider _ h]
  · intro m _ herr
    unfold entryFor
    cases hp : provider (truncateQuery m.title) with
    | ok results => rw [hp] at herr; simp [isProviderError] at herr
    | thrown => simp
    | httpError status => simp

/-- Witness for C1 (amended): with a provider that throws on the query "A"
and succeeds on "B", the batch of both modules completes with a 200 response
and the failed module alone degrades to an empty resource list. -/
theorem enrich_per_module_failure_isolation_witness :
    enrichPOST true flakyProvider
        (some (sampleIndex [sampleModule 1 "A", sampleModule 2 "B"]))
      = .json { enriched_modules :=
          [{ module_title := "A", resources := [] },
           { module_title := "B", resources := [] }] } := by
  have h := (enrich_per_module_failure_isolation flakyProvider
    (sampleIndex [sampleModule 1 "A", sampleModule 2 "B"]) (by decide)).1
  rw [h]
  rfl

/-- C3: the query the enrichment loop sends for a module is exactly
`truncateQuery` of its title — a title of at most 400 characters is sent
unchanged, a longer title is cut to its first 380 characters (hence at most
400) — and the per-module processing depends on the provider only at that
query. -/
theorem truncate_query_cap (t : String) :
    (t.length ≤ 400 → truncateQuery t = t) ∧
    (400 < t.length →
      truncateQuery t = String.mk (t.data.take 380) ∧
      (truncateQuery t).length ≤ 400) ∧
    ∀ (p q : String → TavilyOutcome) (m : LearningModule),
      m.title = t → p (truncateQuery t) = q (truncateQuery t) →
      processModule p m = processModule q m := by
  refine ⟨?_, ?_, ?_⟩
  · intro h
    unfold truncateQuery
    rw [if_neg (by omega)]
  · intro h
    unfold truncateQuery
    rw [if_pos (by omega)]
    refine ⟨rfl, ?_⟩
    have hlen : (String.mk (t.data.take 380)).length = (t.data.take 380).length := rfl
    rw [hlen, List.length_take]
    omega
  · intro p q m hm hpq
    subst hm
    simp only [processModule]
    rw [hpq]

/-- Witness for C3: a short title is sent unchanged, a 401-character title is
capped below 400 characters, and the loop body only looks at the provider's
answer for the truncated query. -/
theorem truncate_query_cap_witness :
    truncateQuery "ab" = "ab" ∧
    (truncateQuery (String.mk (List.replicate 401 'x'))).length ≤ 400 ∧
    processModule emptyProvider (sampleModule 1 "ab")
      = processModule emptyProvider (sampleModule 1 "ab") :=
  ⟨(truncate_query_cap "ab").1 (by decide),
   ((truncate_query_cap (String.mk (List.replicate 401 'x'))).2.1
     (by show (400 : Nat) < (List.replicate 401 'x').length
         rw [List.length_replicate]
         omega)).2,
   (truncate_query_cap "ab").2.2 emptyProvider emptyProvider
     (sampleModule 1 "ab") rfl rfl⟩

/-- C4: every successful response of the enrichment endpoint has exactly one
entry per input module, in the same order, each entry carrying the
corresponding input module's title. -/
theorem enrich_one_entry_per_module (apiKeySet : Bool)
    (provider : String → TavilyOutcome) (body : Option LearningIndexResponse)
    (resp : EnrichedModulesResponse)
    (h : enrichPOST apiKeySet provider body = .json resp) :
    ∃ learningIndex, body = some learningIndex ∧
      resp.enriched_modules.length = learningIndex.learning_modules.length ∧
      ∀ i : Nat,
        (resp.enriched_modules[i]?).map EnrichedModule.module_title
          = (learningIndex.learning_modules[i]?).map LearningModule.title := by
  obtain ⟨learningIndex, hbody, hes, -⟩ :=
    enrichPOST_json_elim apiKeySet provider body resp h
  refine ⟨learningIndex, hbody, ?_, ?_⟩
  · rw [hes, List.length_map]
  · intro i
    rw [hes, List.getElem?_map]
    cases hx : learningIndex.learning_modules[i]? with
    | none => rfl
    | some m => simp [entryFor_module_title]

/-- Witness for C4: a one-module index produces a one-entry response whose
entry carries the module's title. -/
theorem enrich_one_entry_per_module_witness :
    ∃ learningIndex,
      some (sampleIndex [sampleModule 1 "M"]) = some learningIndex ∧
      ({ enriched_modules := [{ module_title := "M", resources := [] }] } :
          EnrichedModulesResponse).enriched_modules.length
        = learningIndex.learning_modules.length ∧
      ∀ i : Nat,
        (({ enriched_modules := [{ module_title := "M", resources := [] }] } :
            EnrichedModulesResponse).enriched_modules[i]?).map
              EnrichedModule.module_title
          = (learningIndex.learning_modules[i]?).map LearningModule.title :=
  enrich_one_entry_per_module true emptyProvider
    (some (sampleIndex [sampleModule 1 "M"]))
    { enriched_modules := [{ module_title := "M", resources := [] }] }
    (by rfl)

/-- C6: if the provider answers a module's query successfully with zero
results (or with the results field absent), that module's output entry has an
empty resource list, and all other modules' entries are exactly what they
would have been had the module not been present. -/
theorem enrich_zero_results_isolated (provider : String → TavilyOutcome)
    (mt ts : String) (pre post : List LearningModule) (m : LearningModule)
    (r : Option (List TavilyResult)) (resp : EnrichedModulesResponse)
    (hok : provider (truncateQuery m.title) = .ok r)
    (hzero : r = none ∨ r = some [])
    (h : enrichPOST true provider
        (some { main_topic := mt, topic_summary := ts,
                learning_modules := pre ++ m :: post }) = .json resp) :
    resp.enriched_modules
      = pre.map (entryFor provider)
        ++ ({ module_title := m.title, resources := [] } : EnrichedModule)
          :: post.map (entryFor provider) ∧
    enrichPOST true provider
        (some { main_topic := mt, topic_summary := ts,
                learning_modules := pre ++ post })
      = .json { enriched_modules :=
          pre.map (entryFor provider) ++ post.map (entryFor provider) } := by
  obtain ⟨li, hbody, hes, hab⟩ := enrichPOST_json_elim true provider _ resp h
  injection hbody with hli
  subst hli
  have hmentry : entryFor provider m
      = { module_title := m.title, resources := [] } := by
    unfold entryFor
    rw [hok]
    rcases hzero with hz | hz <;> subst hz <;> rfl
  constructor
  · rw [hes]
    simp [List.map_append, hmentry]
  · have hab2 : ∀ x ∈ pre ++ post, abortsAt provider x = false := by
      intro x hx
      apply hab
      rcases List.mem_append.mp hx with h1 | h1
      · exact List.mem_append.mpr (Or.inl h1)
      · exact List.mem_append.mpr (Or.inr (List.mem_cons_of_mem m h1))
    simp [enrichPOST, enrichLoop_eq_map provider _ hab2, List.map_append]

/-- Witness for C6: with a provider returning zero results, a two-module
index yields empty resources for the zero-result module and leaves the other
module's entry as it is without it. -/
theorem enrich_zero_results_isolated_witness :
    ({ enriched_modules :=
        [{ module_title := "P", resources := [] },
         { module_title := "Z", resources := [] }] } :
        EnrichedModulesResponse).enriched_modules
      = [sampleModule 1 "P"].map (entryFor emptyProvider)
        ++ ({ module_title := "Z", resources := [] } : EnrichedModule)
          :: ([] : List LearningModule).map (entryFor emptyProvider) ∧
    enrichPOST true emptyProvider
        (some { main_topic := "T", topic_summary := "S",
                learning_modules := [sampleModule 1 "P"] ++ [] })
      = .json { enriched_modules :=
          [sampleModule 1 "P"].map (entryFor emptyProvider)
            ++ ([] : List LearningModule).map (entryFor emptyProvider) } :=
  enrich_zero_results_isolated emptyProvider "T" "S"
    [sampleModule 1 "P"] [] (sampleModule 2 "Z") (some [])
    { enriched_modules :=
        [{ module_title := "P", resources := [] },
         { module_title := "Z", resources := [] }] }
    (by rfl) (Or.inr rfl) (by rfl)

/-! Claim theorems for the client-side merges -/

/-- C7: merging a single-module enrichment result back touches only the
module whose order equals the enriched module's order; every module at a
different order keeps its whole value — resources, title, description and
difficulty included. -/
theorem enrich_single_module_frame (result : LearningIndexResponse)
    (targetModule : LearningModule) (enrichedData : EnrichedModulesResponse) :
    (mergeSingle result targetModule enrichedData).learning_modules.length
      = result.learning_modules.length ∧
    ∀ (i : Nat) (m : LearningModule),
      result.learning_modules[i]? = some m → m.order ≠ targetModule.order →
      (mergeSingle result targetModule enrichedData).learning_modules[i]?
        = some m := by
  constructor
  · simp [mergeSingle]
  · intro i m hm hne
    simp only [mergeSingle, List.getElem?_map, hm, Option.map_some]
    simp [beq_iff_eq, hne]

/-- Witness for C7: re-enriching the module of order 2 leaves the module of
order 1 — resources included — untouched. -/
theorem enrich_single_module_frame_witness :
    (mergeSingle
        { main_topic := "T", topic_summary := "S",
          learning_modules := [sampleModule 1 "A", sampleModule 2 "B"] }
        (sampleModule 2 "B")
        { enriched_modules := [{ module_title := "B", resources := [] }] }
      ).learning_modules[0]? = some (sampleModule 1 "A") :=
  (enrich_single_module_frame
      { main_topic := "T", topic_summary := "S",
        learning_modules := [sampleModule 1 "A", sampleModule 2 "B"] }
      (sampleModule 2 "B")
      { enriched_modules := [{ module_title := "B", resources := [] }] }).2
    0 (sampleModule 1 "A") (by rfl) (by decide)

/-- C10: merging a full-index enrichment response replaces every module's
resources wholesale with the first title-matching entry's resources (the
empty list when no entry matches), discarding whatever resources the module
held, leaving the other fields unchanged; two modules with the same title
receive the same resources. -/
theorem merge_all_wholesale_replacement (result : LearningIndexResponse)
    (enrichedData : EnrichedModulesResponse) :
    (mergeAll result enrichedData).learning_modules.length
      = result.learning_modules.length ∧
    (∀ (i : Nat) (m : LearningModule),
      result.learning_modules[i]? = some m →
      (mergeAll result enrichedData).learning_modules[i]?
        = some { m with resources := some (matchedResources enrichedData m.title) }) ∧
    (∀ m m' : LearningModule, m.title = m'.title →
      matchedResources enrichedData m.title = matchedResources enrichedData m'.title) ∧
    (∀ t : String,
      enrichedData.enriched_modules.find? (fun e => e.module_title == t) = none →
      matchedResources enrichedData t = []) ∧
    (mergeAll result enrichedData).main_topic = result.main_topic ∧
    (mergeAll result enrichedData).topic_summary = result.topic_summary := by
  refine ⟨?_, ?_, ?_, ?_, rfl, rfl⟩
  · simp [mergeAll]
  · intro i m hm
    simp [mergeAll, List.getElem?_map, hm]
  · intro m m' ht
    rw [ht]
  · intro t hfind
    simp [matchedResources, hfind]

/-- Witness for C10: a module holding a resource has it replaced by the empty
list when no enriched entry matches its title. -/
theorem merge_all_wholesale_replacement_witness :
    (mergeAll
        { main_topic := "T", topic_summary := "S",
          learning_modules := [sampleModule 1 "A"] }
        { enriched_modules := [] }).learning_modules[0]?
      = some { sampleModule 1 "A" with
               resources := some (matchedResources { enriched_modules := [] } "A") } :=
  (merge_all_wholesale_replacement
      { main_topic := "T", topic_summary := "S",
        learning_modules := [sampleModule 1 "A"] }
      { enriched_modules := [] }).2.1 0 (sampleModule 1 "A") (by rfl)

/-! Claim theorems for session gating -/

/-- C9: a request under the protected path without the authentication marker
is redirected to the login page; submitting the correct password sets the
`authenticated=true` cookie, whose presence then grants access to protected
routes; an incorrect password yields 401 and sets no cookie. -/
theorem auth_route_gating (path : String) (cookie redirectParam : Option String)
    (pw submitted : String) :
    (startsWithPath path "/app" = true → cookie ≠ some "true" →
      middleware { pathname := path, authenticatedCookie := cookie,
                   redirectParam := redirectParam }
        = .redirect "/" (some path)) ∧
    authPOST (some pw) (some (some pw))
      = { status := 200, setCookie := some ("authenticated", "true") } ∧
    (startsWithPath path "/app" = true →
      middleware { pathname := path, authenticatedCookie := some "true",
                   redirectParam := redirectParam } = .next) ∧
    (submitted ≠ pw →
      authPOST (some pw) (some (some submitted))
        = { status := 401, setCookie := none }) := by
  refine ⟨?_, ?_, ?_, ?_⟩
  · intro hpath hcookie
    simp [middleware, hpath, hcookie]
  · simp [authPOST]
  · intro hpath
    simp [middleware, hpath]
  · intro hne
    simp [authPOST, hne]

/-- Witness for C9: evaluating the gating at the path "/app/x" with no
cookie, and the auth endpoint with the right and a wrong password. -/
theorem auth_route_gating_witness :
    middleware { pathname := "/app/x", authenticatedCookie := none,
                 redirectParam := none }
      = .redirect "/" (some "/app/x") ∧
    authPOST (some "pw") (some (some "pw"))
      = { status := 200, setCookie := some ("authenticated", "true") } ∧
    middleware { pathname := "/app/x", authenticatedCookie := some "true",
                 redirectParam := none } = .next ∧
    authPOST (some "pw") (some (some "nope"))
      = { status := 401, setCookie := none } := by
  obtain ⟨h1, h2, h3, h4⟩ := auth_route_gating "/app/x" none none "pw" "nope"
  exact ⟨h1 (by decide) (by decide), h2, h3 (by decide), h4 (by decide)⟩

/-- The catch-block mapping of a thrown LLM error never yields a 200 JSON
response. -/
theorem mapLlmFailure_ne_json (status : Nat) (x : LearningIndexResponse) :
    mapLlmFailure status ≠ .json x := by
  unfold mapLlmFailure
  split_ifs <;> simp

/-! Claim theorems for the index-generation endpoint -/

/-- C2 counterexample: the structure check of the submit-text endpoint does
not reject an LLM answer that parses (as `JSON.parse` does on the JSON text
of these objects) to an index with zero modules, nor one with duplicate
module order values — both are returned as successful responses. -/
theorem submit_text_unvalidated_shape_counterexample :
    processTextPOST true (some (.str "hello")) (.content (some "response"))
        zeroModulesParse
      = .json zeroModulesIndex ∧
    zeroModulesIndex.learning_modules.length = 0 ∧
    processTextPOST true (some (.str "hello")) (.content (some "response"))
        dupOrderParse
      = .json dupOrderIndex ∧
    dupOrderIndex.learning_modules.map LearningModule.order = [1, 1] := by
  exact ⟨by rfl, rfl, by rfl, rfl⟩

/-- C2 (amended): a successful submit-text response is guaranteed a
non-empty `main_topic` and a non-empty `topic_summary` by the endpoint's
validation; the validation does not enforce that the index has at least one
module, nor that module order values are unique. -/
theorem submit_text_success_shape (apiKeySet : Bool) (body : Option TextField)
    (llm : LlmOutcome) (parse : String → Option LearningIndexResponse)
    (learningIndex : LearningIndexResponse)
    (h : processTextPOST apiKeySet body llm parse = .json learningIndex) :
    learningIndex.main_topic ≠ "" ∧ learningIndex.topic_summary ≠ "" := by
  cases apiKeySet with
  | false => simp [processTextPOST] at h
  | true =>
    cases body with
    | none => simp [processTextPOST] at h
    | some text =>
      cases hv : isValidTextInput text with
      | false => simp [processTextPOST, hv] at h
      | true =>
        simp only [processTextPOST, hv, Bool.not_true, Bool.not_false,
          Bool.false_eq_true, if_false] at h
        cases llm with
        | failure status =>
          exact absurd h (mapLlmFailure_ne_json status learningIndex)
        | content c =>
          cases c with
          | none => simp at h
          | some responseText =>
            dsimp only [] at h
            cases hp : parse (cleanJsonResponse responseText) with
            | none => rw [hp] at h; simp at h
            | some idx =>
              rw [hp] at h
              dsimp only [] at h
              cases hval : validateStructure idx with
              | false => rw [hval] at h; simp at h
              | true =>
                rw [hval] at h
                simp only [if_true, ApiResult.json.injEq] at h
                subst h
                unfold validateStructure at hval
                simp only [Bool.and_eq_true, Bool.not_eq_eq_eq_not,
                  Bool.not_true, beq_eq_false_iff_ne] at hval
                exact hval

/-- Witness for C2 (amended): the concrete successful response of the
counterexample run indeed carries non-empty topic fields. -/
theorem submit_text_success_shape_witness :
    zeroModulesIndex.main_topic ≠ "" ∧ zeroModulesIndex.topic_summary ≠ "" :=
  submit_text_success_shape true (some (.str "hello"))
    (.content (some "response")) zeroModulesParse zeroModulesIndex (by rfl)

/-- C8: a request body whose text field is missing, not a string, or
whitespace-only fails the validation test, and any such request is answered
with HTTP 400 and the fixed validation message, without the outcome of the
LLM call or of `JSON.parse` ever being consulted. -/
theorem submit_text_rejects_invalid_input :
    isValidTextInput .missing = false ∧
    isValidTextInput .nonString = false ∧
    (∀ s : String, s.data.all Char.isWhitespace = true →
      isValidTextInput (.str s) = false) ∧
    ∀ text : TextField, isValidTextInput text = false →
      ∀ (llm llm' : LlmOutcome)
        (parse parse' : String → Option LearningIndexResponse),
        processTextPOST true (some text) llm parse
          = .error 400 "Text input is required and cannot be empty" ∧
        processTextPOST true (some text) llm parse
          = processTextPOST true (some text) llm' parse' := by
  refine ⟨rfl, rfl, ?_, ?_⟩
  · intro s hs
    unfold isValidTextInput
    have hws : ∀ x ∈ s.data, Char.isWhitespace x := by
      simpa [List.all_eq_true] using hs
    have h1 : s.data.dropWhile Char.isWhitespace = [] :=
      List.dropWhile_eq_nil_iff.mpr hws
    simp [trimChars, h1]
  · intro text hinv llm llm' parse parse'
    exact ⟨by simp [processTextPOST, hinv], by simp [processTextPOST, hinv]⟩

/-- Witness for C8: a whitespace-only text is rejected with 400, whatever the
LLM would have answered. -/
theorem submit_text_rejects_invalid_input_witness :
    processTextPOST true (some (.str " ")) (.content none) zeroModulesParse
      = .error 400 "Text input is required and cannot be empty" :=
  (submit_text_rejects_invalid_input.2.2.2 (.str " ") (by decide)
    (.content none) (.content none) zeroModulesParse zeroModulesParse).1

/-! Helper lemmas for the response normalizer -/

/-- dropWhile distributes over an append whose right part starts with a
character failing the predicate. -/
theorem dropWhile_append_cons_false (p : Char → Bool) (l : List Char)
    (b : Char) (w : List Char) (hb : p b = false) :
    (l ++ b :: w).dropWhile p = l.dropWhile p ++ b :: w := by
  induction l with
  | nil => simp [List.dropWhile_cons, hb]
  | cons x xs ih =>
    by_cases hx : p x <;> simp [List.dropWhile_cons, hx, ih]

/-- Right-trimming only removes characters: membership is preserved towards
the original list. -/
theorem mem_of_mem_rtrimWs (q : List Char) (x : Char) (hx : x ∈ rtrimWs q) :
    x ∈ q := by
  unfold rtrimWs at hx
  rw [List.mem_reverse] at hx
  exact List.mem_reverse.mp ((List.dropWhile_sublist _).subset hx)

/-- Trimming a text that starts and ends with non-whitespace characters only
right-trims the part after the final one. -/
theorem trimChars_shape (a : Char) (ha : a.isWhitespace = false)
    (mid : List Char) (b : Char) (hb : b.isWhitespace = false)
    (q : List Char) :
    trimChars ((a :: mid ++ [b]) ++ q) = (a :: mid ++ [b]) ++ rtrimWs q := by
  unfold trimChars rtrimWs
  have h1 : ((a :: mid ++ [b]) ++ q).dropWhile Char.isWhitespace
      = (a :: mid ++ [b]) ++ q := by
    simp [List.cons_append, List.dropWhile_cons, ha]
  rw [h1]
  have h3 : ((a :: mid ++ [b]) ++ q).reverse
      = q.reverse ++ b :: (mid.reverse ++ [a]) := by simp
  rw [h3, dropWhile_append_cons_false _ _ _ _ hb]
  simp

/-- The leading-fence stripper leaves a text beginning with an opening brace
unchanged. -/
theorem stripLeadingFence_lbrace (t : List Char) :
    stripLeadingFence (lbrace :: t) = lbrace :: t := rfl

/-- The leading-fence stripper removes the concrete fence header and the
whitespace after it when the fenced body starts with an opening brace. -/
theorem stripLeadingFence_fenceHeader (t : List Char) :
    stripLeadingFence (fenceHeader ++ lbrace :: t) = lbrace :: t := rfl

/-- The trailing-fence stripper maps a text of shape "brace-delimited object
then prose without closing brace" to a text of the same shape, removing
characters only from the prose. -/
theorem stripTrailingFence_shape (inner q : List Char) (hq : rbrace ∉ q) :
    ∃ q2, rbrace ∉ q2 ∧
      stripTrailingFence ((lbrace :: inner ++ [rbrace]) ++ q)
        = (lbrace :: inner ++ [rbrace]) ++ q2 := by
  have hrev : ((lbrace :: inner ++ [rbrace]) ++ q).reverse
      = q.reverse ++ rbrace :: (inner.reverse ++ [lbrace]) := by simp
  by_cases hfence :
      ((lbrace :: inner ++ [rbrace]) ++ q).reverse.take 3
        = [backquote, backquote, backquote]
  · have hlen : 3 ≤ q.length := by
      by_contra hlt
      push_neg at hlt
      have hmem : rbrace
          ∈ ((lbrace :: inner ++ [rbrace]) ++ q).reverse.take 3 := by
        rw [hrev, List.take_append_eq_append_take]
        have h2 : 3 - q.reverse.length = (2 - q.reverse.length) + 1 := by
          rw [List.length_reverse]
          omega
        rw [h2, List.take_succ_cons]
        exact List.mem_append.mpr (Or.inr (List.mem_cons_self _ _))
      rw [hfence] at hmem
      exact absurd hmem (by decide)
    refine ⟨((q.reverse.drop 3).dropWhile Char.isWhitespace).reverse, ?_, ?_⟩
    · intro hx
      exact hq (List.mem_reverse.mp ((List.drop_sublist _ _).subset
        ((List.dropWhile_sublist _).subset (List.mem_reverse.mp hx))))
    · unfold stripTrailingFence
      rw [if_pos hfence, hrev, List.drop_append_eq_append_drop]
      have h0 : 3 - q.reverse.length = 0 := by
        rw [List.length_reverse]
        omega
      rw [h0, List.drop_zero,
        dropWhile_append_cons_false _ _ _ _ (by decide)]
      simp
  · refine ⟨q, hq, ?_⟩
    unfold stripTrailingFence
    rw [if_neg hfence]

/-- Locating the first occurrence past a prefix that does not contain the
character shifts the index by the prefix length. -/
theorem firstIdxOf_append_not_mem (c : Char) (l₁ l₂ : List Char)
    (h : c ∉ l₁) :
    firstIdxOf c (l₁ ++ l₂) = (firstIdxOf c l₂).map fun k => l₁.length + k := by
  induction l₁ with
  | nil => cases hk : firstIdxOf c l₂ <;> simp [hk]
  | cons a t ih =>
    have ha : (a == c) = false := by
      simp only [beq_eq_false_iff_ne]
      intro he
      exact h (he ▸ List.mem_cons_self a t)
    have ht : c ∉ t := fun hm => h (List.mem_cons_of_mem a hm)
    cases hk : firstIdxOf c l₂ with
    | none => simp [firstIdxOf, ha, ih ht, hk]
    | some k =>
      simp [firstIdxOf, ha, ih ht, hk]
      omega

/-- The brace-span extraction recovers exactly the brace-delimited object
when what follows it contains no closing brace. -/
theorem extractJsonSpan_shape (inner q : List Char) (hq : rbrace ∉ q) :
    extractJsonSpan ((lbrace :: inner ++ [rbrace]) ++ q)
      = lbrace :: inner ++ [rbrace] := by
  have hfirst :
      firstIdxOf lbrace ((lbrace :: inner ++ [rbrace]) ++ q) = some 0 := by
    simp [List.cons_append, firstIdxOf]
  have hrev : ((lbrace :: inner ++ [rbrace]) ++ q).reverse
      = q.reverse ++ rbrace :: (inner.reverse ++ [lbrace]) := by simp
  have hqrev : rbrace ∉ q.reverse := fun hm => hq (List.mem_reverse.mp hm)
  have hlast : lastIdxOf rbrace ((lbrace :: inner ++ [rbrace]) ++ q)
      = some (inner.length + 1) := by
    unfold lastIdxOf
    rw [hrev, firstIdxOf_append_not_mem _ _ _ hqrev]
    have h0 : firstIdxOf rbrace (rbrace :: (inner.reverse ++ [lbrace]))
        = some 0 := by
      simp [firstIdxOf]
    rw [h0]
    simp only [Option.map_map, Option.map_some]
    simp [List.length_append, List.length_reverse]
    omega
  unfold extractJsonSpan
  rw [hfirst, hlast]
  dsimp only []
  rw [if_pos (by omega), List.drop_zero]
  have harith : inner.length + 1 - 0 + 1
      = (lbrace :: inner ++ [rbrace]).length := by
    simp [List.length_append]
  rw [harith, List.take_left]

/-- Trimming a bare brace-delimited object changes nothing. -/
theorem trimChars_object (inner : List Char) :
    trimChars (lbrace :: inner ++ [rbrace]) = lbrace :: inner ++ [rbrace] := by
  have h := trimChars_shape lbrace (by decide) inner rbrace (by decide) []
  simpa [rtrimWs] using h

/-! Claim theorems for the response normalizer -/

/-- C5 counterexample: on a text made of the JSON object written as
open-brace close-brace, followed by the prose " ok" and a stray closing
brace, the greedy span extraction keeps the whole text (first opening brace
to last closing brace) instead of recovering the JSON object. -/
theorem clean_json_greedy_counterexample :
    cleanJsonResponse (String.mk [lbrace, rbrace, ' ', 'o', 'k', rbrace])
      = String.mk [lbrace, rbrace, ' ', 'o', 'k', rbrace] ∧
    cleanJsonResponse (String.mk [lbrace, rbrace, ' ', 'o', 'k', rbrace])
      ≠ String.mk [lbrace, rbrace] := by
  exact ⟨by rfl, by decide⟩

/-- C5 (amended): for every raw LLM response consisting of an optional
markdown code fence, a brace-delimited JSON object, and trailing prose that
contains no closing brace, the normalizer recovers exactly the JSON object
substring. -/
theorem clean_json_recovers_object (fence : Bool) (inner prose : List Char)
    (hprose : rbrace ∉ prose) :
    cleanJsonResponse (String.mk
        ((if fence then fenceHeader else [])
          ++ (lbrace :: inner ++ [rbrace]) ++ prose))
      = String.mk (lbrace :: inner ++ [rbrace]) := by
  unfold cleanJsonResponse
  refine congrArg String.mk ?_
  show cleanJsonCore
      ((if fence then fenceHeader else [])
        ++ (lbrace :: inner ++ [rbrace]) ++ prose)
    = lbrace :: inner ++ [rbrace]
  have hq1 : rbrace ∉ rtrimWs prose := fun hm => hprose (mem_of_mem_rtrimWs _ _ hm)
  obtain ⟨q2, hq2, hstrip⟩ := stripTrailingFence_shape inner (rtrimWs prose) hq1
  cases fence with
  | false =>
    unfold cleanJsonCore
    rw [if_neg (by simp), List.nil_append,
      trimChars_shape lbrace (by decide) inner rbrace (by decide) prose]
    have hcons : (lbrace :: inner ++ [rbrace]) ++ rtrimWs prose
        = lbrace :: (inner ++ [rbrace] ++ rtrimWs prose) := by simp
    rw [hcons, stripLeadingFence_lbrace, ← hcons, hstrip,
      extractJsonSpan_shape inner q2 hq2, trimChars_object]
  | true =>
    unfold cleanJsonCore
    rw [if_pos rfl]
    have hshape : fenceHeader ++ (lbrace :: inner ++ [rbrace]) ++ prose
        = (backquote
            :: ([backquote, backquote, 'j', 's', 'o', 'n', '\n']
                ++ (lbrace :: inner)) ++ [rbrace]) ++ prose := by
      simp [fenceHeader]
    rw [hshape, trimChars_shape backquote (by decide) _ rbrace (by decide) prose]
    have hback : (backquote
            :: ([backquote, backquote, 'j', 's', 'o', 'n', '\n']
                ++ (lbrace :: inner)) ++ [rbrace]) ++ rtrimWs prose
        = fenceHeader ++ lbrace :: (inner ++ [rbrace] ++ rtrimWs prose) := by
      simp [fenceHeader]
    rw [hback, stripLeadingFence_fenceHeader]
    have hcons : (lbrace :: (inner ++ [rbrace] ++ rtrimWs prose) : List Char)
        = (lbrace :: inner ++ [rbrace]) ++ rtrimWs prose := by simp
    rw [hcons, hstrip, extractJsonSpan_shape inner q2 hq2, trimChars_object]

/-- Witness for C5 (amended): a fenced object with trailing prose free of
closing braces is recovered exactly. -/
theorem clean_json_recovers_object_witness :
    cleanJsonResponse (String.mk
        ((if true then fenceHeader else [])
          ++ (lbrace :: ['a'] ++ [rbrace]) ++ [' ', 'x']))
      = String.mk (lbrace :: ['a'] ++ [rbrace]) :=
  clean_json_recovers_object true ['a'] [' ', 'x'] (by decide)

end Indice
